import Mathlib

/-!
Verification of the `SignatureES` elasticsearch-flat driver of image-match
(`image_match/elasticsearchflat_driver.py`), shallowly embedded in Lean.

The driver's external collaborators (the elasticsearch client, the signature
generator `gis`, and the helpers imported from `signature_database_base`) are
not part of this repository's sources; they are modelled from the spec where a
claim depends on them, and each such definition says so in its doc comment.
-/

namespace ImageMatch

/-- An image as produced by the external `preprocess_image`: a rectangular
matrix of integer pixel values (`numpy` 2-d array). -/
abbrev Img := List (List Int)

/-- `numpy.fliplr`: reverse each row (horizontal mirror). -/
def fliplr (m : Img) : Img := m.map List.reverse

/-- `numpy.rot90`: rotate 90 degrees counterclockwise; on nested lists this is
the reverse of the transpose. -/
def rot90 (m : Img) : Img := (List.transpose m).reverse

/-- Elementwise negation of pixel values (`lambda x: -x`). -/
def negImg (m : Img) : Img := m.map (List.map (fun v => -v))

/-- The eight distinct function objects built by `search_image` when
`all_orientations` is true: two inversions, four rotations, two mirrors.  Each
Python lambda (and `np.fliplr`) is a distinct object, so `set()` deduplicates
them by object identity; we model object identity as equality of these tags.
Note the three identity lambdas (`invId`, `rotNone`, `mirNone`) are distinct
objects that all compute the identity. -/
inductive TransformObj where
  | invId
  | invNeg
  | rotNone
  | rotOnce
  | rotTwice
  | rotThrice
  | mirNone
  | mirFlip
deriving DecidableEq

/-- What each of the eight function objects computes on an image. -/
def TransformObj.apply : TransformObj → Img → Img
  | .invId, x => x
  | .invNeg, x => negImg x
  | .rotNone, x => x
  | .rotOnce, x => rot90 x
  | .rotTwice, x => rot90 (rot90 x)
  | .rotThrice, x => rot90 (rot90 (rot90 x))
  | .mirNone, x => x
  | .mirFlip, x => fliplr x

/-- The `inversions` list of `search_image` (line 202). -/
def inversions : List TransformObj := [.invId, .invNeg]

/-- The `rotations` list of `search_image` (lines 207-210). -/
def rotations : List TransformObj := [.rotNone, .rotOnce, .rotTwice, .rotThrice]

/-- The `mirrors` list of `search_image` (line 204). -/
def mirrors : List TransformObj := [.mirNone, .mirFlip]

/-- `itertools.product(inversions, rotations, mirrors)` (line 213), in its
enumeration order: 16 triples of function objects. -/
def orientationTuples : List (TransformObj × TransformObj × TransformObj) :=
  inversions.flatMap (fun i => rotations.flatMap (fun r => mirrors.map (fun m => (i, r, m))))

/-- `np.ravel(list(orientations))` (line 223): the list of 16 function-object
triples is flattened row-major into 48 single function objects.  The tuple
structure, and with it any possibility of composing the three families, is
destroyed at this point. -/
def raveledTransforms : List TransformObj :=
  orientationTuples.flatMap (fun t => [t.1, t.2.1, t.2.2])

/-- The transform set iterated over by the pass loop of `search_image`
(lines 223-224): `set(np.ravel(list(orientations)))`.  With
`all_orientations=True` this is the set of the eight distinct function objects
(modelled by `dedup`; Python's set iteration order is unspecified, so theorems
below only use membership and cardinality of this list).  With
`all_orientations=False` the Python list holds a single identity lambda, so the
set is a single identity function object. -/
def passTransforms (all_orientations : Bool) : List TransformObj :=
  if all_orientations then raveledTransforms.dedup else [.invId]

/-- A caller-supplied pre-filter clause; the driver treats it as opaque and only
embeds it into the query body (line 92). -/
abbrev PreFilter := String

/-- The search request sent by `search_single_record` (lines 75-99): the query
body (a bool/must match on `simple_words` with `minimum_should_match`, an
optional conjoined filter, and the `_source.excludes` list) together with the
`index`, `doc_type`, `size` and `timeout` request parameters. -/
structure Query where
  index : String
  doc_type : String
  words : List String
  minimum_should_match : Nat
  filter : Option PreFilter
  source_excludes : List String
  size : Nat
  timeout : String
deriving DecidableEq

/-- One element of `res = es.search(...)['hits']['hits']`: the store id, the
store score, and the returned `_source` fields used by the driver. -/
structure Hit where
  id : String
  score : ℚ
  signature : List Int
  url : Option String
  path : Option String
  metadata : Option String
deriving DecidableEq

/-- Failures surfaced during a search call: an error raised by the store client
(unreachable, timed out, malformed response), or a `KeyError` from popping an
absent key from the record dictionary. -/
inductive Err where
  | store (msg : String)
  | keyError (key : String)
deriving DecidableEq

/-- The record dictionary handled by the driver.  `path`, `signature` and
`metadata` are optional because `search_single_record` pops them: a popped key
is absent (`none`). -/
structure Record where
  path : Option String
  signature : Option (List Int)
  simple_words : List String
  metadata : Option String
deriving DecidableEq

/-- The opaque signature generator (an excluded external collaborator): the
numeric signature and the word sequence of an image. -/
structure GIS where
  sig : Img → List Int
  words : Img → List String

/-- The `SignatureES` driver state: the store client `es` (modelled as a
function from a search request to its outcome) and the configuration set in
`__init__` (lines 60-65), plus the signature generator and the
`distance_cutoff` inherited from the base class. -/
structure SignatureES where
  es : Query → Except Err (List Hit)
  index : String
  doc_type : String
  timeout : String
  size : Nat
  minimum_should_match : Nat
  distance_cutoff : ℚ
  gis : GIS

/-- Modelled from the spec: `normalized_distance` is imported from
`signature_database_base`, which is not among this repository's source files.
Section 4.3 of the spec requires a normalized dissimilarity in `[0,1]`, zero
iff the signatures are identical, non-decreasing in elementwise difference
magnitude; we realise it as the L1-normalised elementwise difference
(with the convention that division by a zero denominator yields 0). -/
def normalized_distance (a b : List Int) : ℚ :=
  ((((List.zipWith (fun x y => (x - y).natAbs) a b).sum : ℕ)) : ℚ) /
    (((a.map Int.natAbs).sum + (b.map Int.natAbs).sum : ℕ) : ℚ)

/-- The query built by `search_single_record` (lines 75-92): a match on
`simple_words` carrying the record's word sequence and the configured
`minimum_should_match`, the pre-filter conjoined when present, and
`_source.excludes = ['simple_words']`; sent with the configured index,
doc_type, size and timeout (lines 95-99). -/
def buildQuery (s : SignatureES) (words : List String) (pre_filter : Option PreFilter) : Query :=
  { index := s.index
    doc_type := s.doc_type
    words := words
    minimum_should_match := s.minimum_should_match
    filter := pre_filter
    source_excludes := [("simple_words")]
    size := s.size
    timeout := s.timeout }

/-- One element of `formatted_res` (lines 108-115): id, store score, metadata,
path (the stored `url` if present, else the stored `path`), and the computed
distance. -/
structure ResultItem where
  id : String
  score : ℚ
  metadata : Option String
  path : Option String
  dist : ℚ
deriving DecidableEq

/-- `search_single_record` (lines 69-118), with the distance function as an
explicit parameter (the driver imports it from the absent base module; the
specialisation to `normalized_distance` is `searchSingleRecord` below).  The
function pops `path`, `signature` and (when present) `metadata` off the record
before querying, so the record mutation is threaded explicitly: the returned
pair carries the result (or the propagated error) and the record as the call
leaves it.  The guard `sigs.size == 0` (line 103) holds exactly when the hit
list is empty or every returned signature is the empty list. -/
def searchSingleRecordWith (nd : List Int → List Int → ℚ) (s : SignatureES)
    (record : Record) (pre_filter : Option PreFilter) :
    Except Err (List ResultItem) × Record :=
  match record.path with
  | none => (.error (.keyError ("path")), record)
  | some _ =>
    let rec1 : Record := { record with path := none }
    match rec1.signature with
    | none => (.error (.keyError ("signature")), rec1)
    | some signature =>
      let rec2 : Record := { rec1 with signature := none, metadata := none }
      let q : Query := buildQuery s rec2.simple_words pre_filter
      match s.es q with
      | .error e => (.error e, rec2)
      | .ok res =>
        if res.all (fun x => x.signature.isEmpty) then (.ok [], rec2)
        else
          let formatted : List ResultItem := res.map (fun x =>
            { id := x.id
              score := x.score
              metadata := x.metadata
              path := (x.url).orElse (fun _ => x.path)
              dist := nd x.signature signature })
          (.ok (formatted.filter (fun y => decide (y.dist < s.distance_cutoff))), rec2)

/-- `search_single_record` with the imported `normalized_distance`. -/
def searchSingleRecord (s : SignatureES) (record : Record) (pre_filter : Option PreFilter) :
    Except Err (List ResultItem) × Record :=
  searchSingleRecordWith normalized_distance s record pre_filter

/-- Modelled from the spec: `make_record` lives in `signature_database_base`,
absent from the sources.  Per the spec (RecordCodec, section 2 and section 3)
it builds the record for an image: the signature and word sequence produced by
the signature generator, the path, and the optional metadata.  (`search_image`
passes the transformed image itself in the path slot of the transient query
record; that value is popped unused by `search_single_record`, so it is
modelled as an empty string.) -/
def make_record (g : GIS) (path : String) (img : Img) (metadata : Option String) : Record :=
  { path := some path
    signature := some (g.sig img)
    simple_words := g.words img
    metadata := metadata }

/-- The accumulation loop of `search_image` (lines 221-232): run `f` on each
element in order and concatenate the resulting lists (`result.extend(l)`); an
exception raised by any pass aborts the whole call. -/
def exceptMapConcat (f : TransformObj → Except Err (List ResultItem)) :
    List TransformObj → Except Err (List ResultItem)
  | [] => .ok []
  | t :: ts =>
    match f t with
    | .error e => .error e
    | .ok xs =>
      match exceptMapConcat f ts with
      | .error e => .error e
      | .ok ys => .ok (xs ++ ys)

/-- The concatenated per-pass results inside `search_image` (lines 221-232),
with the distance function explicit: one `search_single_record` call on the
record of each transformed image, in pass order. -/
def passResultsWith (nd : List Int → List Int → ℚ) (s : SignatureES) (img : Img)
    (all_orientations : Bool) (pre_filter : Option PreFilter) :
    Except Err (List ResultItem) :=
  exceptMapConcat
    (fun t =>
      (searchSingleRecordWith nd s (make_record s.gis ("") (t.apply img) none) pre_filter).1)
    (passTransforms all_orientations)

/-- The deduplication loop of `search_image` (lines 234-239): walk the
accumulated results and keep an item iff its id has not been seen yet. -/
def dedupById : List ResultItem → List String → List ResultItem
  | [], _ => []
  | x :: xs, seen =>
    if x.id ∈ seen then dedupById xs seen
    else x :: dedupById xs (x.id :: seen)

/-- The comparison used by the final `sorted(unique, key=itemgetter('dist'))`
(line 241). -/
def distLe (a b : ResultItem) : Prop := a.dist ≤ b.dist

instance : DecidableRel distLe := fun a b => inferInstanceAs (Decidable (a.dist ≤ b.dist))

instance : IsTotal ResultItem distLe := ⟨fun a b => le_total a.dist b.dist⟩

instance : IsTrans ResultItem distLe := ⟨fun _ _ _ h1 h2 => le_trans h1 h2⟩

/-- `search_image` (lines 165-242), with the distance function explicit.  Image
preprocessing is external, so the function takes the preprocessed image.  It
runs one `search_single_record` pass per element of the transform set,
concatenates, deduplicates by id keeping the first occurrence, and sorts the
survivors ascending by dist (Python's `sorted` is a stable sort, as is
`insertionSort`). -/
def searchImageWith (nd : List Int → List Int → ℚ) (s : SignatureES) (img : Img)
    (all_orientations : Bool) (pre_filter : Option PreFilter) :
    Except Err (List ResultItem) :=
  (passResultsWith nd s img all_orientations pre_filter).map
    (fun result => List.insertionSort distLe (dedupById result []))

/-- `search_image` with the imported `normalized_distance`. -/
def searchImage (s : SignatureES) (img : Img) (all_orientations : Bool)
    (pre_filter : Option PreFilter) : Except Err (List ResultItem) :=
  searchImageWith normalized_distance s img all_orientations pre_filter

/-- A document as stored by the store, for the stateful operations: the
store-assigned id and the stored `path` field used by `delete_duplicates`. -/
structure StoredDoc where
  id : Nat
  path : String
deriving DecidableEq

/-- Modelled from the spec: the store search used by `delete_duplicates`
(section 6, "Exact-match query ... used only by deleteDuplicates"): it returns
the hits for the match on the `path` field; modelled as all stored documents
whose path equals the argument. -/
def searchByPath (st : List StoredDoc) (p : String) : List StoredDoc :=
  st.filter (fun d => decide (d.path = p))

/-- Modelled from the spec: the store delete operation (section 6,
`delete(index, id)`): removes the document carrying the given id. -/
def esDelete (st : List StoredDoc) (i : Nat) : List StoredDoc :=
  st.filter (fun d => decide (d.id ≠ i))

/-- `delete_duplicates` (lines 125-140): search the store by path, keep the ids
of the hits whose stored path equals the argument exactly (the client-side
equality filter on line 137), and delete every id after the first. -/
def delete_duplicates (st : List StoredDoc) (p : String) : List StoredDoc :=
  let matching_paths : List Nat :=
    ((searchByPath st p).filter (fun d => decide (d.path = p))).map (fun d => d.id)
  if matching_paths.length > 0 then matching_paths.tail.foldl esDelete st
  else st

/-- The number of `es.delete` calls issued by `delete_duplicates`
(the length of `matching_paths[1:]`). -/
def delete_duplicates_deletions (st : List StoredDoc) (p : String) : Nat :=
  (((searchByPath st p).filter (fun d => decide (d.path = p))).map (fun d => d.id)).tail.length

/-- A record as indexed by `insert_single_record`: the driver record plus the
timestamp stamped at insertion (line 121); `none` before stamping. -/
structure TimedRecord where
  record : Record
  timestamp : Option Nat
deriving DecidableEq

/-- The store state for insertions: the indexed documents with their
store-assigned ids, and the next fresh id. -/
structure ESIndexState where
  docs : List (Nat × TimedRecord)
  nextId : Nat
deriving DecidableEq

/-- Modelled from the spec: the store insert operation (section 6,
`index(index, document) -> id`): persists the document under a fresh
store-assigned id and returns that id to its caller. -/
def esIndex (st : ESIndexState) (body : TimedRecord) : ESIndexState × Nat :=
  ({ docs := st.docs ++ [(st.nextId, body)], nextId := st.nextId + 1 }, st.nextId)

/-- `insert_single_record` (lines 120-123): stamps the record with the current
time (`datetime.now()`, passed explicitly here) and indexes it.  The value
returned by `es.index`, which carries the store-assigned id, is discarded; the
Python function returns `None`, modelled as `Unit`. -/
def insert_single_record (now : Nat) (st : ESIndexState) (record : Record) :
    ESIndexState × Unit :=
  ((esIndex st { record := record, timestamp := some now }).1, ())

/-- `add_image` (lines 142-163): build the flat record for the image and insert
it; like `insert_single_record` it returns `None` (`Unit`). -/
def add_image (now : Nat) (st : ESIndexState) (g : GIS) (path : String) (img : Img)
    (metadata : Option String) : ESIndexState × Unit :=
  insert_single_record now st (make_record g path img metadata)

/-- The number of tokens shared by a query word sequence and a stored word
sequence, as a set-overlap count (tokens are effectively unique per grid cell,
spec section 4.1). -/
def overlapCount (q d : List String) : Nat := (q.toFinset ∩ d.toFinset).card

/-- Modelled from the spec: the document store's overlap-match semantics
(sections 4.1 and 6) are external to the driver; a stored document with word
sequence `docWords` is returned as a candidate for a query iff it shares at
least `minimum_should_match` tokens with the query's word sequence. -/
def storeMatches (q : Query) (docWords : List String) : Prop :=
  q.minimum_should_match ≤ overlapCount q.words docWords

instance (q : Query) (docWords : List String) : Decidable (storeMatches q docWords) :=
  inferInstanceAs (Decidable (_ ≤ _))

/-- A concrete image used as failing/witness input. -/
def exampleImg : Img := [[1, 2], [3, 4]]

/-- The worked example's query tokens (spec section 4.1). -/
def exampleQueryWords : List String :=
  [("11111"), ("99999"), ("33333"), ("44444"), ("00000"), ("55555"), ("88888")]

/-- The worked example's stored-document tokens (spec section 4.1). -/
def exampleDocWords : List String :=
  [("11111"), ("22222"), ("33333"), ("44444"), ("55555"), ("66666"), ("77777")]

/-- A trivial signature generator for concrete instances. -/
def trivialGIS : GIS := ⟨fun _ => [1], fun _ => [("w")]⟩

/-- A concrete driver whose store always reports zero matches. -/
def emptyStoreES : SignatureES :=
  ⟨fun _ => .ok [], ("images"), ("image"), ("10s"), 100, 6, 0, trivialGIS⟩

/-- A concrete driver whose store always fails. -/
def downStoreES : SignatureES :=
  ⟨fun _ => .error (.store ("down")), ("images"), ("image"), ("10s"), 100, 6, 0, trivialGIS⟩

/-- A concrete record as built for an insert or a query. -/
def exampleRecord : Record := ⟨some ("p"), some [1], [("w")], some ("m")⟩

/-- A fresh store with next id 1. -/
def initialStore : ESIndexState := ⟨[], 1⟩

/-- A fresh store with next id 99. -/
def otherStore : ESIndexState := ⟨[], 99⟩

/-- A store hit identical to the query signature. -/
def witnessHitA : Hit := ⟨("a"), 1, [1], none, some ("pa"), none⟩

/-- A store hit at distance 1/2 from the query signature. -/
def witnessHitB : Hit := ⟨("b"), 1, [3], none, some ("pb"), none⟩

/-- A concrete driver whose store reports two candidates, with cutoff 1. -/
def witnessES : SignatureES :=
  ⟨fun _ => .ok [witnessHitA, witnessHitB], ("images"), ("image"), ("10s"), 100, 6, 1,
    trivialGIS⟩

/-- The reranked result for `witnessHitA`. -/
def witnessItemA : ResultItem := ⟨("a"), 1, none, some ("pa"), 0⟩

/-- The reranked result for `witnessHitB`. -/
def witnessItemB : ResultItem := ⟨("b"), 1, none, some ("pb"), 1/2⟩

/-- A concrete store state with two duplicates of path `a` and one other doc. -/
def dupStore : List StoredDoc := [⟨1, ("a")⟩, ⟨2, ("a")⟩, ⟨3, ("b")⟩]

/- ### Helper lemmas -/

lemma normalized_distance_nonneg (a b : List Int) : 0 ≤ normalized_distance a b := by
  unfold normalized_distance
  exact div_nonneg (Nat.cast_nonneg _) (Nat.cast_nonneg _)

lemma overlapCount_perm {q q' d d' : List String} (hq : q.Perm q') (hd : d.Perm d') :
    overlapCount q d = overlapCount q' d' := by
  have h1 : q.toFinset = q'.toFinset := by
    have : (q : Multiset String) = (q' : Multiset String) := Multiset.coe_eq_coe.mpr hq
    simp [List.toFinset, Multiset.toFinset, this]
  have h2 : d.toFinset = d'.toFinset := by
    have : (d : Multiset String) = (d' : Multiset String) := Multiset.coe_eq_coe.mpr hd
    simp [List.toFinset, Multiset.toFinset, this]
  unfold overlapCount
  rw [h1, h2]

lemma mem_dedupById {l : List ResultItem} {seen : List String} :
    ∀ x ∈ dedupById l seen, x ∈ l := by
  induction l generalizing seen with
  | nil => intro x hx; simp [dedupById] at hx
  | cons a l ih =>
    intro x hx
    unfold dedupById at hx
    by_cases ha : a.id ∈ seen
    · simp only [if_pos ha] at hx
      exact List.mem_cons_of_mem a (ih x hx)
    · simp only [if_neg ha] at hx
      rcases List.mem_cons.mp hx with h | h
      · exact h ▸ List.mem_cons_self a l
      · exact List.mem_cons_of_mem a (ih x h)

lemma dedupById_find {l : List ResultItem} {seen : List String} :
    ∀ x ∈ dedupById l seen,
      x.id ∉ seen ∧ l.find? (fun y => decide (y.id = x.id)) = some x := by
  induction l generalizing seen with
  | nil => intro x hx; simp [dedupById] at hx
  | cons a l ih =>
    intro x hx
    unfold dedupById at hx
    by_cases ha : a.id ∈ seen
    · simp only [if_pos ha] at hx
      obtain ⟨hseen, hfind⟩ := ih x hx
      have hne : ¬ (decide (a.id = x.id) = true) := by
        simp only [decide_eq_true_eq]
        intro h
        exact hseen (h ▸ ha)
      exact ⟨hseen, by rw [List.find?_cons_of_neg l hne]; exact hfind⟩
    · simp only [if_neg ha] at hx
      rcases List.mem_cons.mp hx with h | h
      · subst h
        exact ⟨ha, List.find?_cons_of_pos l (by simp)⟩
      · obtain ⟨hseen, hfind⟩ := ih x h
        have hxa : x.id ≠ a.id := by
          intro hcontra
          exact hseen (by simp [List.mem_cons, hcontra])
        have hne : ¬ (decide (a.id = x.id) = true) := by
          simp only [decide_eq_true_eq]
          intro hcontra
          exact hxa hcontra.symm
        refine ⟨fun hc => hseen (List.mem_cons_of_mem _ hc), ?_⟩
        rw [List.find?_cons_of_neg l hne]
        exact hfind

lemma dedupById_ids_nodup (l : List ResultItem) (seen : List String) :
    ((dedupById l seen).map (fun r => r.id)).Nodup := by
  induction l generalizing seen with
  | nil => simp [dedupById]
  | cons a l ih =>
    unfold dedupById
    by_cases ha : a.id ∈ seen
    · simp only [if_pos ha]
      exact ih seen
    · simp only [if_neg ha, List.map_cons, List.nodup_cons]
      refine ⟨?_, ih (a.id :: seen)⟩
      intro hmem
      obtain ⟨x, hx, hxid⟩ := List.mem_map.mp hmem
      have := (dedupById_find x hx).1
      exact this (by simp [hxid])

lemma dedupById_covers {l : List ResultItem} {seen : List String} :
    ∀ y ∈ l, y.id ∈ seen ∨ ∃ x ∈ dedupById l seen, x.id = y.id := by
  induction l generalizing seen with
  | nil => intro y hy; simp at hy
  | cons a l ih =>
    intro y hy
    unfold dedupById
    by_cases ha : a.id ∈ seen
    · simp only [if_pos ha]
      rcases List.mem_cons.mp hy with h | h
      · exact Or.inl (h ▸ ha)
      · exact ih y h
    · simp only [if_neg ha]
      rcases List.mem_cons.mp hy with h | h
      · exact Or.inr ⟨a, List.mem_cons_self _ _, by rw [h]⟩
      · rcases @ih (a.id :: seen) y h with hs | ⟨x, hx, hxid⟩
        · rcases List.mem_cons.mp hs with h1 | h1
          · exact Or.inr ⟨a, List.mem_cons_self _ _, h1.symm⟩
          · exact Or.inl h1
        · exact Or.inr ⟨x, List.mem_cons_of_mem _ hx, hxid⟩

lemma exceptMapConcat_ok_mem {f : TransformObj → Except Err (List ResultItem)} :
    ∀ {ts : List TransformObj} {res : List ResultItem},
      exceptMapConcat f ts = .ok res → ∀ x ∈ res, ∃ t ∈ ts, ∃ l, f t = .ok l ∧ x ∈ l := by
  intro ts
  induction ts with
  | nil =>
    intro res h x hx
    simp only [exceptMapConcat] at h
    cases h
    simp at hx
  | cons t ts ih =>
    intro res h x hx
    unfold exceptMapConcat at h
    cases hft : f t with
    | error e => rw [hft] at h; cases h
    | ok xs =>
      rw [hft] at h
      cases hrest : exceptMapConcat f ts with
      | error e => rw [hrest] at h; cases h
      | ok ys =>
        rw [hrest] at h
        cases h
        rcases List.mem_append.mp hx with hmem | hmem
        · exact ⟨t, List.mem_cons_self _ _, xs, hft, hmem⟩
        · obtain ⟨t', ht', l', hfl', hxl'⟩ := ih hrest x hmem
          exact ⟨t', List.mem_cons_of_mem _ ht', l', hfl', hxl'⟩

lemma foldl_esDelete :
    ∀ (L : List Nat) (st : List StoredDoc),
      L.foldl esDelete st = st.filter (fun d => decide (d.id ∉ L)) := by
  intro L
  induction L with
  | nil => intro st; simp [List.filter_true]
  | cons i L ih =>
    intro st
    have : List.foldl esDelete st (i :: L) = List.foldl esDelete (esDelete st i) L := rfl
    rw [this, ih, esDelete, List.filter_filter]
    refine List.filter_congr ?_
    intro d _
    by_cases h1 : d.id ∈ L <;> by_cases h2 : d.id = i <;>
      simp [List.mem_cons, h1, h2]

lemma searchSingleRecordWith_eq (nd : List Int → List Int → ℚ) (s : SignatureES)
    (p : String) (sig : List Int) (w : List String) (md : Option String)
    (pre : Option PreFilter) :
    searchSingleRecordWith nd s ⟨some p, some sig, w, md⟩ pre =
      (match s.es (buildQuery s w pre) with
       | .error e => (.error e, ⟨none, none, w, none⟩)
       | .ok res =>
         if res.all (fun x => x.signature.isEmpty) then (.ok [], ⟨none, none, w, none⟩)
         else
           (.ok ((res.map (fun x =>
               ({ id := x.id
                  score := x.score
                  metadata := x.metadata
                  path := (x.url).orElse (fun _ => x.path)
                  dist := nd x.signature sig } : ResultItem))).filter
                 (fun y => decide (y.dist < s.distance_cutoff))),
            ⟨none, none, w, none⟩)) := rfl

lemma mem_searchSingleRecord_bounds {s : SignatureES} {p : String} {sig : List Int}
    {w : List String} {md : Option String} {pre : Option PreFilter}
    {out : List ResultItem}
    (h : (searchSingleRecordWith normalized_distance s ⟨some p, some sig, w, md⟩ pre).1
          = .ok out) :
    ∀ r ∈ out, 0 ≤ r.dist ∧ r.dist < s.distance_cutoff := by
  rw [searchSingleRecordWith_eq] at h
  cases hes : s.es (buildQuery s w pre) with
  | error e => simp only [hes] at h; cases h
  | ok res =>
    simp only [hes] at h
    by_cases hall : res.all (fun x => x.signature.isEmpty) = true
    · simp only [if_pos hall] at h
      cases h
      intro r hr
      cases hr
    · simp only [if_neg hall] at h
      cases h
      intro r hr
      obtain ⟨hmem, hcut⟩ := List.mem_filter.mp hr
      obtain ⟨x, _, hx⟩ := List.mem_map.mp hmem
      refine ⟨?_, of_decide_eq_true hcut⟩
      rw [← hx]
      exact normalized_distance_nonneg x.signature sig

lemma mem_searchImage_bounds {s : SignatureES} {img : Img} {ao : Bool}
    {pre : Option PreFilter} {out : List ResultItem}
    (h : searchImage s img ao pre = .ok out) :
    ∀ r ∈ out, 0 ≤ r.dist ∧ r.dist < s.distance_cutoff := by
  unfold searchImage searchImageWith at h
  cases hres : passResultsWith normalized_distance s img ao pre with
  | error e => simp only [hres, Except.map] at h; cases h
  | ok res =>
    simp only [hres, Except.map, Except.ok.injEq] at h
    intro r hr
    rw [← h] at hr
    have hr2 : r ∈ dedupById res [] := (List.mem_insertionSort distLe).mp hr
    have hr3 : r ∈ res := mem_dedupById r hr2
    unfold passResultsWith at hres
    obtain ⟨t, _, l, hfl, hrl⟩ := exceptMapConcat_ok_mem hres r hr3
    exact mem_searchSingleRecord_bounds (s := s) hfl r hrl

lemma make_record_def (g : GIS) (p : String) (img : Img) (md : Option String) :
    make_record g p img md = ⟨some p, some (g.sig img), g.words img, md⟩ := rfl

lemma searchImage_ok_shape {nd : List Int → List Int → ℚ} {s : SignatureES} {img : Img}
    {ao : Bool} {pre : Option PreFilter} {out : List ResultItem}
    (h : searchImageWith nd s img ao pre = .ok out) :
    ∃ res, passResultsWith nd s img ao pre = .ok res ∧
      out = List.insertionSort distLe (dedupById res []) := by
  unfold searchImageWith at h
  cases hres : passResultsWith nd s img ao pre with
  | error e => simp only [hres, Except.map] at h; cases h
  | ok res =>
    simp only [hres, Except.map, Except.ok.injEq] at h
    exact ⟨res, rfl, h.symm⟩

lemma searchSingleRecordWith_es_ok_nil {nd : List Int → List Int → ℚ} {s : SignatureES}
    {p : String} {sig : List Int} {w : List String} {md : Option String}
    {pre : Option PreFilter}
    (hok : s.es (buildQuery s w pre) = .ok []) :
    (searchSingleRecordWith nd s ⟨some p, some sig, w, md⟩ pre).1 = .ok [] := by
  rw [searchSingleRecordWith_eq, hok]
  rfl

lemma searchSingleRecordWith_es_error {nd : List Int → List Int → ℚ} {s : SignatureES}
    {p : String} {sig : List Int} {w : List String} {md : Option String}
    {pre : Option PreFilter} {e : Err}
    (herr : s.es (buildQuery s w pre) = .error e) :
    (searchSingleRecordWith nd s ⟨some p, some sig, w, md⟩ pre).1 = .error e := by
  rw [searchSingleRecordWith_eq, herr]

lemma searchImageWith_false_es_ok_nil {nd : List Int → List Int → ℚ} {s : SignatureES}
    {img : Img} {pre : Option PreFilter}
    (hok : s.es (buildQuery s (s.gis.words img) pre) = .ok []) :
    searchImageWith nd s img false pre = .ok [] := by
  have hpass : (searchSingleRecordWith nd s (make_record s.gis ("") img none) pre).1
      = .ok [] := by
    rw [make_record_def]
    exact searchSingleRecordWith_es_ok_nil hok
  unfold searchImageWith passResultsWith passTransforms exceptMapConcat
  simp only [if_neg (Bool.false_ne_true), TransformObj.apply, hpass]
  rfl

lemma searchImageWith_false_es_error {nd : List Int → List Int → ℚ} {s : SignatureES}
    {img : Img} {pre : Option PreFilter} {e : Err}
    (herr : s.es (buildQuery s (s.gis.words img) pre) = .error e) :
    searchImageWith nd s img false pre = .error e := by
  have hpass : (searchSingleRecordWith nd s (make_record s.gis ("") img none) pre).1
      = .error e := by
    rw [make_record_def]
    exact searchSingleRecordWith_es_error herr
  unfold searchImageWith passResultsWith passTransforms exceptMapConcat
  simp only [if_neg (Bool.false_ne_true), TransformObj.apply, hpass]
  rfl

lemma searchByPath_filter_self (st : List StoredDoc) (p : String) :
    (searchByPath st p).filter (fun d => decide (d.path = p)) =
      st.filter (fun d => decide (d.path = p)) := by
  unfold searchByPath
  rw [List.filter_filter]
  exact List.filter_congr (fun d _ => by by_cases h : d.path = p <;> simp [h])

/- ### Claim theorems -/

/-- C7: for every store state holding `k >= 1` documents whose stored path
exactly equals the argument (and store-unique ids), `delete_duplicates`
retrieves the exactly-matching documents, issues `k-1` store deletions, leaves
exactly one surviving document with that path, and never deletes a document
whose stored path differs from the argument. -/
theorem delete_duplicates_correct (st : List StoredDoc) (p : String)
    (hids : (st.map (fun d => d.id)).Nodup)
    (hk : 1 ≤ st.countP (fun d => decide (d.path = p))) :
    (delete_duplicates st p).countP (fun d => decide (d.path = p)) = 1 ∧
    delete_duplicates_deletions st p = st.countP (fun d => decide (d.path = p)) - 1 ∧
    (∀ d ∈ st, d.path ≠ p → d ∈ delete_duplicates st p) := by
  cases hfm : st.filter (fun d => decide (d.path = p)) with
  | nil =>
    rw [List.countP_eq_length_filter, hfm] at hk
    simp at hk
  | cons d0 rest =>
    have hmn : ((d0 :: rest).map (fun d => d.id)).Nodup := by
      rw [← hfm]
      exact ((List.filter_sublist st).map (fun d => d.id)).nodup hids
    have hd0 : d0.id ∉ rest.map (fun d => d.id) := (List.nodup_cons.mp hmn).1
    have hPm : ∀ d ∈ d0 :: rest, d.path = p := by
      intro d hd
      have hd2 : d ∈ st.filter (fun d => decide (d.path = p)) := by rw [hfm]; exact hd
      exact of_decide_eq_true (List.mem_filter.mp hd2).2
    have hsub : ∀ d ∈ d0 :: rest, d ∈ st := by
      intro d hd
      have hd2 : d ∈ st.filter (fun d => decide (d.path = p)) := by rw [hfm]; exact hd
      exact (List.mem_filter.mp hd2).1
    have hdd : delete_duplicates st p
        = st.filter (fun d => decide (d.id ∉ rest.map (fun x => x.id))) := by
      unfold delete_duplicates
      simp only [searchByPath_filter_self, hfm, List.map_cons, List.length_cons,
        List.tail_cons]
      rw [if_pos (Nat.succ_pos _)]
      exact foldl_esDelete _ st
    have hrestnil :
        rest.filter (fun d => decide (d.id ∉ rest.map (fun x => x.id))) = [] := by
      rw [List.filter_eq_nil_iff]
      intro d hd
      simp only [decide_eq_true_eq, not_not]
      exact List.mem_map_of_mem (fun x => x.id) hd
    refine ⟨?_, ?_, ?_⟩
    · rw [hdd, List.countP_eq_length_filter, List.filter_filter]
      have hswap : st.filter
            (fun d => decide (d.path = p) && decide (d.id ∉ rest.map (fun x => x.id)))
          = (st.filter (fun d => decide (d.path = p))).filter
              (fun d => decide (d.id ∉ rest.map (fun x => x.id))) := by
        rw [List.filter_filter]
        exact List.filter_congr (fun d _ => Bool.and_comm _ _)
      have hcons : List.filter (fun d => decide (d.id ∉ rest.map (fun x => x.id)))
            (d0 :: rest)
          = d0 :: List.filter (fun d => decide (d.id ∉ rest.map (fun x => x.id))) rest := by
        rw [List.filter_cons, if_pos (decide_eq_true hd0)]
      rw [hswap, hfm, hcons, hrestnil]
      rfl
    · unfold delete_duplicates_deletions
      simp only [searchByPath_filter_self, hfm, List.map_cons, List.tail_cons,
        List.length_map, List.countP_eq_length_filter]
      simp
    · intro d hd hdp
      rw [hdd]
      refine List.mem_filter.mpr ⟨hd, decide_eq_true ?_⟩
      intro hmemid
      obtain ⟨d', hd', hid⟩ := List.mem_map.mp hmemid
      have hd'm : d' ∈ d0 :: rest := List.mem_cons_of_mem _ hd'
      have heq : d = d' :=
        List.inj_on_of_nodup_map hids hd (hsub d' hd'm) hid.symm
      exact hdp (heq ▸ hPm d' hd'm)

/-- C1 (the code's actual behaviour at the failing input): with
`all_orientations=True`, the pass loop of `search_image` iterates over only 8
single-family function objects — `np.ravel` flattens the 16
`(inversion, rotation, mirror)` tuples before `set()` is taken — and never over
a composed transform: the composed image `negate(rot90(img))`, which the claim
requires as one of the passes, is produced by none of the passes.  With
`all_orientations=False` there is exactly one identity pass, as claimed. -/
theorem orientation_passes_not_composed :
    (passTransforms true).length = 8 ∧
    ((passTransforms true).map (fun t => t.apply exampleImg)).contains
        (negImg (rot90 exampleImg)) = false ∧
    passTransforms false = [TransformObj.invId] := by decide

/-- C2: every result returned by `search_single_record` or `search_image`
satisfies `0 <= dist < distance_cutoff`, for every configured cutoff value
(including 0 and 1): the reranker keeps exactly the candidates with
`dist < cutoff`, and the normalized distance is nonnegative. -/
theorem cutoff_filter_invariant (s : SignatureES) (p : String) (sig : List Int)
    (w : List String) (md : Option String) (pre : Option PreFilter)
    (img : Img) (ao : Bool) :
    (∀ out, (searchSingleRecord s ⟨some p, some sig, w, md⟩ pre).1 = .ok out →
        ∀ r ∈ out, 0 ≤ r.dist ∧ r.dist < s.distance_cutoff) ∧
    (∀ out, searchImage s img ao pre = .ok out →
        ∀ r ∈ out, 0 ≤ r.dist ∧ r.dist < s.distance_cutoff) :=
  ⟨fun _ h => mem_searchSingleRecord_bounds h, fun _ h => mem_searchImage_bounds h⟩

/-- C3: within one `search_image` call each candidate id appears at most once
in the returned list; the entry kept for an id is the first-seen occurrence in
the concatenated pass results (so a later duplicate from another orientation
pass is dropped even if its dist is lower), and every reported id is
represented by its first occurrence. -/
theorem search_dedup_first_seen (s : SignatureES) (img : Img) (ao : Bool)
    (pre : Option PreFilter) (res out : List ResultItem)
    (hres : passResultsWith normalized_distance s img ao pre = .ok res)
    (hout : searchImage s img ao pre = .ok out) :
    (out.map (fun r => r.id)).Nodup ∧
    (∀ x ∈ out, res.find? (fun y => decide (y.id = x.id)) = some x) ∧
    (∀ y ∈ res, ∃ x ∈ out, x.id = y.id) := by
  obtain ⟨res2, hres2, hout2⟩ := searchImage_ok_shape hout
  rw [hres] at hres2
  cases hres2
  subst hout2
  refine ⟨?_, ?_, ?_⟩
  · exact ((List.perm_insertionSort distLe (dedupById res [])).map
      (fun r => r.id)).nodup_iff.mpr (dedupById_ids_nodup res [])
  · intro x hx
    exact (dedupById_find x ((List.mem_insertionSort distLe).mp hx)).2
  · intro y hy
    rcases @dedupById_covers res [] y hy with hs | ⟨x, hx, hxid⟩
    · simp at hs
    · exact ⟨x, (List.mem_insertionSort distLe).mpr hx, hxid⟩

/-- C4: every list returned by `search_image` is sorted ascending by `dist`:
adjacent pairs are in nondecreasing `dist` order. -/
theorem search_results_sorted (s : SignatureES) (img : Img) (ao : Bool)
    (pre : Option PreFilter) (out : List ResultItem)
    (h : searchImage s img ao pre = .ok out) :
    out.Pairwise distLe := by
  obtain ⟨res, _, hout⟩ := searchImage_ok_shape h
  rw [hout]
  exact List.sorted_insertionSort distLe (dedupById res [])

/-- C5: under the store's overlap-match semantics, the query built by
`search_single_record` matches a stored document iff the two word sequences
share at least `minimum_should_match` tokens, independently of the order of
both sequences; on the worked example the shared-token count is 4, so the
document matches iff the configured threshold is at most 4. -/
theorem overlap_threshold_correct (s : SignatureES) (w q2 d d2 : List String)
    (pre : Option PreFilter) (hq : List.Perm w q2) (hd : List.Perm d d2) :
    (storeMatches (buildQuery s w pre) d ↔
        s.minimum_should_match ≤ overlapCount q2 d2) ∧
    overlapCount exampleQueryWords exampleDocWords = 4 ∧
    (∀ n : Nat,
        storeMatches
            (buildQuery { s with minimum_should_match := n } exampleQueryWords pre)
            exampleDocWords ↔ n ≤ 4) := by
  refine ⟨?_, by decide, ?_⟩
  · unfold storeMatches buildQuery
    rw [overlapCount_perm hq hd]
  · intro n
    unfold storeMatches buildQuery
    have h4 : overlapCount exampleQueryWords exampleDocWords = 4 := by decide
    rw [h4]

/-- C6: a zero-match store response yields an empty result list, with no error
and no dependence on the distance function (stated for an arbitrary `nd`);
a store failure is propagated as an error by `search_single_record` and by
`search_image`, never downgraded to an empty result. -/
theorem empty_result_and_error_propagation (nd : List Int → List Int → ℚ)
    (s : SignatureES) (p : String) (sig : List Int) (w : List String)
    (md : Option String) (pre : Option PreFilter) (img : Img) :
    (s.es (buildQuery s w pre) = .ok [] →
        (searchSingleRecordWith nd s ⟨some p, some sig, w, md⟩ pre).1 = .ok []) ∧
    (∀ e, s.es (buildQuery s w pre) = .error e →
        (searchSingleRecordWith nd s ⟨some p, some sig, w, md⟩ pre).1 = .error e) ∧
    (s.es (buildQuery s (s.gis.words img) pre) = .ok [] →
        searchImageWith nd s img false pre = .ok []) ∧
    (∀ e, s.es (buildQuery s (s.gis.words img) pre) = .error e →
        searchImageWith nd s img false pre = .error e) :=
  ⟨fun h => searchSingleRecordWith_es_ok_nil h,
   fun _ h => searchSingleRecordWith_es_error h,
   fun h => searchImageWith_false_es_ok_nil h,
   fun _ h => searchImageWith_false_es_error h⟩

theorem empty_result_and_error_propagation_witness :
    (searchSingleRecordWith (fun _ _ => 0) emptyStoreES
        ⟨some ("p"), some [1], [("w")], none⟩ none).1 = .ok [] ∧
    searchImageWith (fun _ _ => 0) downStoreES [[1]] false none
      = .error (.store ("down")) :=
  ⟨(empty_result_and_error_propagation (fun _ _ => 0) emptyStoreES ("p") [1]
      [("w")] none none [[1]]).1 rfl,
   (empty_result_and_error_propagation (fun _ _ => 0) downStoreES ("p") [1]
      [("w")] none none [[1]]).2.2.2 (.store ("down")) rfl⟩

theorem overlap_threshold_correct_witness :
    storeMatches (buildQuery emptyStoreES exampleQueryWords none) exampleDocWords ↔
      emptyStoreES.minimum_should_match ≤
        overlapCount exampleQueryWords.reverse exampleDocWords.reverse :=
  (overlap_threshold_correct emptyStoreES exampleQueryWords exampleQueryWords.reverse
      exampleDocWords exampleDocWords.reverse none
      (List.reverse_perm exampleQueryWords).symm
      (List.reverse_perm exampleDocWords).symm).1

lemma searchSingleRecordWith_snd (nd : List Int → List Int → ℚ) (s : SignatureES)
    (p : String) (sig : List Int) (w : List String) (md : Option String)
    (pre : Option PreFilter) :
    (searchSingleRecordWith nd s ⟨some p, some sig, w, md⟩ pre).2
      = ⟨none, none, w, none⟩ := by
  rw [searchSingleRecordWith_eq]
  rcases s.es (buildQuery s w pre) with e | res
  · rfl
  · dsimp only
    split <;> rfl

/-- C8 amended: `search_single_record` mutates the record passed to it: after
the call the record's `path`, `signature` and `metadata` entries have been
popped (they are absent), while `simple_words` is untouched. -/
theorem search_single_record_pops_fields (nd : List Int → List Int → ℚ)
    (s : SignatureES) (p : String) (sig : List Int) (w : List String)
    (md : Option String) (pre : Option PreFilter) :
    (searchSingleRecordWith nd s ⟨some p, some sig, w, md⟩ pre).2.path = none ∧
    (searchSingleRecordWith nd s ⟨some p, some sig, w, md⟩ pre).2.signature = none ∧
    (searchSingleRecordWith nd s ⟨some p, some sig, w, md⟩ pre).2.metadata = none ∧
    (searchSingleRecordWith nd s ⟨some p, some sig, w, md⟩ pre).2.simple_words = w := by
  rw [searchSingleRecordWith_snd]
  exact ⟨rfl, rfl, rfl, rfl⟩

/-- C8 counterexample: `search_single_record` does not leave the record
unchanged: after the call the record it was passed no longer contains its
`path`, `signature` and `metadata` fields. -/
theorem record_mutation_counterexample :
    (searchSingleRecord emptyStoreES exampleRecord none).2 ≠ exampleRecord ∧
    (searchSingleRecord emptyStoreES exampleRecord none).2.path = none ∧
    (searchSingleRecord emptyStoreES exampleRecord none).2.signature = none ∧
    (searchSingleRecord emptyStoreES exampleRecord none).2.metadata = none ∧
    exampleRecord.path = some ("p") ∧ exampleRecord.metadata = some ("m") := by
  decide

/-- C9 amended: the only field excluded from the candidate payload by the
query built in `search_single_record` is `simple_words`; the `signature` field
is not excluded (the reranker reads each hit's signature from the payload). -/
theorem query_excludes_only_simple_words (s : SignatureES) (w : List String)
    (pre : Option PreFilter) :
    (buildQuery s w pre).source_excludes = [("simple_words")] ∧
    (buildQuery s w pre).source_excludes.contains ("signature") = false :=
  ⟨rfl, rfl⟩

/-- C9 counterexample: on a concrete query the exclusion list sent to the store
contains `simple_words` but not `signature`, so the signature field is not
excluded from the candidate payload. -/
theorem signature_not_excluded_counterexample :
    (buildQuery emptyStoreES [("w")] none).source_excludes.contains ("signature")
        = false ∧
    (buildQuery emptyStoreES [("w")] none).source_excludes.contains ("simple_words")
        = true := by
  decide

/-- C10 counterexample: `add_image` does not return the store-assigned id: the
two calls below persist their documents under different store-assigned ids
(1 and 99), yet both return the same value — `insert_single_record` discards
the store's response, so `add_image` returns `None`. -/
theorem add_image_discards_id_counterexample :
    (add_image 0 initialStore trivialGIS ("p") exampleImg none).1.docs.map
        Prod.fst = [1] ∧
    (add_image 0 otherStore trivialGIS ("p") exampleImg none).1.docs.map
        Prod.fst = [99] ∧
    (add_image 0 initialStore trivialGIS ("p") exampleImg none).2
      = (add_image 0 otherStore trivialGIS ("p") exampleImg none).2 := by
  decide

/-- C10 amended: `add_image` persists the stamped record under the
store-assigned id (`st.nextId`), but that id is recorded only in the store
state: the call itself returns `None` (`Unit`). -/
theorem add_image_returns_unit (now : Nat) (st : ESIndexState) (g : GIS)
    (p : String) (img : Img) (md : Option String) :
    (add_image now st g p img md).2 = () ∧
    (add_image now st g p img md).1.docs
      = st.docs ++ [(st.nextId, ⟨make_record g p img md, some now⟩)] ∧
    (add_image now st g p img md).1.nextId = st.nextId + 1 :=
  ⟨rfl, rfl, rfl⟩

lemma witness_single_eval :
    (searchSingleRecord witnessES ⟨some ("p"), some [1], [("w")], none⟩ none).1
      = .ok [witnessItemA, witnessItemB] := by
  unfold searchSingleRecord
  rw [searchSingleRecordWith_eq]
  norm_num [witnessES, trivialGIS, witnessHitA, witnessHitB, witnessItemA, witnessItemB,
    normalized_distance, buildQuery, List.filter, List.all, List.zipWith]

lemma witness_pass_eval :
    passResultsWith normalized_distance witnessES [[5]] false none
      = .ok [witnessItemA, witnessItemB] := by
  have h1 : (searchSingleRecordWith normalized_distance witnessES
      (make_record witnessES.gis ("") [[5]] none) none).1
        = .ok [witnessItemA, witnessItemB] := by
    rw [make_record_def, searchSingleRecordWith_eq]
    norm_num [witnessES, trivialGIS, witnessHitA, witnessHitB, witnessItemA, witnessItemB,
      normalized_distance, buildQuery, List.filter, List.all, List.zipWith]
  unfold passResultsWith passTransforms exceptMapConcat
  simp only [if_neg (Bool.false_ne_true), TransformObj.apply, h1]
  norm_num [exceptMapConcat]

lemma witness_image_eval :
    searchImage witnessES [[5]] false none = .ok [witnessItemA, witnessItemB] := by
  unfold searchImage searchImageWith
  rw [witness_pass_eval]
  norm_num [dedupById, Except.map, List.insertionSort, List.orderedInsert,
    witnessItemA, witnessItemB, distLe]

theorem cutoff_filter_invariant_witness :
    (searchSingleRecord witnessES ⟨some ("p"), some [1], [("w")], none⟩ none).1
        = .ok [witnessItemA, witnessItemB] ∧
    (0 ≤ witnessItemA.dist ∧ witnessItemA.dist < witnessES.distance_cutoff) ∧
    (0 ≤ witnessItemB.dist ∧ witnessItemB.dist < witnessES.distance_cutoff) := by
  refine ⟨witness_single_eval, ?_, ?_⟩
  · exact (cutoff_filter_invariant witnessES ("p") [1] [("w")] none none [[5]] false).1
      [witnessItemA, witnessItemB] witness_single_eval witnessItemA (by simp)
  · exact (cutoff_filter_invariant witnessES ("p") [1] [("w")] none none [[5]] false).1
      [witnessItemA, witnessItemB] witness_single_eval witnessItemB (by simp)

theorem search_dedup_first_seen_witness :
    passResultsWith normalized_distance witnessES [[5]] false none
        = .ok [witnessItemA, witnessItemB] ∧
    searchImage witnessES [[5]] false none = .ok [witnessItemA, witnessItemB] ∧
    (([witnessItemA, witnessItemB] : List ResultItem).map (fun r => r.id)).Nodup := by
  refine ⟨witness_pass_eval, witness_image_eval, ?_⟩
  exact (search_dedup_first_seen witnessES [[5]] false none
    [witnessItemA, witnessItemB] [witnessItemA, witnessItemB]
    witness_pass_eval witness_image_eval).1

theorem search_results_sorted_witness :
    searchImage witnessES [[5]] false none = .ok [witnessItemA, witnessItemB] ∧
    ([witnessItemA, witnessItemB] : List ResultItem).Pairwise distLe :=
  ⟨witness_image_eval,
   search_results_sorted witnessES [[5]] false none [witnessItemA, witnessItemB]
     witness_image_eval⟩

theorem delete_duplicates_correct_witness :
    ((dupStore.map (fun d => d.id)).Nodup ∧
      1 ≤ dupStore.countP (fun d => decide (d.path = ("a")))) ∧
    (delete_duplicates dupStore ("a")).countP (fun d => decide (d.path = ("a"))) = 1 ∧
    delete_duplicates_deletions dupStore ("a")
      = dupStore.countP (fun d => decide (d.path = ("a"))) - 1 := by
  have h1 : (dupStore.map (fun d => d.id)).Nodup := by decide
  have h2 : 1 ≤ dupStore.countP (fun d => decide (d.path = ("a"))) := by decide
  obtain ⟨c1, c2, _⟩ := delete_duplicates_correct dupStore ("a") h1 h2
  exact ⟨⟨h1, h2⟩, c1, c2⟩

end ImageMatch
